import Mathlib

/-!
Verification of `src/model/instance_reader/unsup_bipartite_graphsage_inst_reader.cc`
(embedx bipartite-graph batch constructor).

The single source file under verification uses several helpers from the rest of
the repository (node-type extraction, the `Indexing` table, the line parser and
the neighbour-aggregation flow).  Those are not part of the provided source, so
they are modelled from the specification; each such definition carries a doc
comment starting with `Modelled from the spec:`.  Everything else is a direct
shallow embedding of the C++ code.
-/

namespace Embedx

/-- A node identifier: an opaque 64-bit value (`int_t` in the source). -/
abbrev Node := Nat

/-- Modelled from the spec: `io_util::GetNodeType` is missing from the given
source.  The spec (§3) says a node identifier is "an opaque 64-bit value
encoding both a node-type tag and a type-local id (the type tag is recoverable
via a pure extraction function)", with the tag a `uint16_t`.  We model the
extraction as taking the high 16 bits of the 64-bit identifier. -/
def GetNodeType (node : Node) : Nat :=
  node / 2 ^ 48 % 2 ^ 16

/-- Modelled from the spec: the `Indexing` class (`LocalIndexTable`, §4.2) is
missing from the given source.  A table is an insertion-ordered duplicate-free
list of nodes; this is the lookup of a node's dense index (position of its
first occurrence). -/
def lookupIndex? : List Node → Node → Option Nat
  | [], _ => none
  | x :: xs, n => if x = n then some 0 else (lookupIndex? xs n).map (· + 1)

/-- Modelled from the spec: `Indexing::Get` returns the dense index of the node
"in `[0, size)`" and a negative value (`index < 0`) for a node never inserted
(§4.2). -/
def indexingGet (t : List Node) (n : Node) : Int :=
  match lookupIndex? t n with
  | some i => (i : Int)
  | none => -1

/-- Modelled from the spec: `Indexing::Size` is the number of indexed nodes. -/
def indexingSize (t : List Node) : Nat := t.length

/-- One diagnostic produced by `ParseUserAndItemFrom` for a node whose type tag
matches neither registered tag (the `DXERROR` at lines 43-44). -/
structure ParseError where
  node : Node
  group : Nat
  user_group : Nat
  item_group : Nat
  deriving Repr, DecidableEq

/-- Output of `ParseUserAndItemFrom`: the two partitions plus the emitted
per-node diagnostics. -/
structure ParseResult where
  user_nodes : List Node
  item_nodes : List Node
  errors : List ParseError
  deriving Repr, DecidableEq

/-- Shallow embedding of `ParseUserAndItemFrom` (source lines 33-47): route
each node by its extracted type tag into the user list, the item list, or a
non-fatal diagnostic, preserving input order. -/
def ParseUserAndItemFrom (nodes : List Node) (user_group item_group : Nat) :
    ParseResult :=
  match nodes with
  | [] => ⟨[], [], []⟩
  | node :: rest =>
    let r := ParseUserAndItemFrom rest user_group item_group
    let group := GetNodeType node
    if group = user_group then
      ⟨node :: r.user_nodes, r.item_nodes, r.errors⟩
    else if group = item_group then
      ⟨r.user_nodes, node :: r.item_nodes, r.errors⟩
    else
      ⟨r.user_nodes, r.item_nodes, ⟨node, group, user_group, item_group⟩ :: r.errors⟩

/-- Insert a node into an insertion-ordered set if not already present. -/
def insertUnique (acc : List Node) (n : Node) : List Node :=
  if n ∈ acc then acc else acc ++ [n]

/-- Modelled from the spec: the level-0 node set of `SampleSubGraph` together
with `inst_util::CreateIndexings` (both missing from the given source) turn the
seed node list into a fresh `LocalIndexTable`: a duplicate-free node set in
which "insertion order determines index order" and "every node placed into this
table is present exactly once" (§3, §4.5 step 4). -/
def buildIndexing (nodes : List Node) : List Node :=
  nodes.foldl insertUnique []

/-- Shallow embedding of the training-path `index_func` lambda (source lines
154-164).  `none` models the fatal `DXCHECK(index >= 0)` abort on a lookup
miss; the lambda's deduced return type is the 64-bit `int_t`, so no narrowing
occurs here. -/
def index_func (user_ns_id : Nat) (userTable itemTable : List Node)
    (node : Node) : Option Nat :=
  if GetNodeType node = user_ns_id then
    let index := indexingGet userTable node
    if 0 ≤ index then some index.toNat else none
  else
    let index := indexingGet itemTable node
    if 0 ≤ index then some (index.toNat + indexingSize userTable) else none

/-- C++ conversion of an unsigned 64-bit value to a signed 32-bit `int`:
truncation modulo `2^32`, reinterpreted in two's complement. -/
def toInt32 (v : Nat) : Int :=
  if v % 2 ^ 32 < 2 ^ 31 then ((v % 2 ^ 32 : Nat) : Int)
  else ((v % 2 ^ 32 : Nat) : Int) - 2 ^ 32

/-- Shallow embedding of the predict-path `UnsupBipartiteInstReader::Index`
(source lines 212-222).  It is declared to return `int` while the item branch
computes `(int_t)index + user_indexings_[0].Size()` as an unsigned 64-bit
value, so the returned value passes through a narrowing conversion to a signed
32-bit `int`, modelled by `toInt32`.  `none` models the fatal
`DXCHECK(index >= 0)` abort. -/
def Index (user_ns_id : Nat) (userTable itemTable : List Node)
    (node : Node) : Option Int :=
  if GetNodeType node = user_ns_id then
    let index := indexingGet userTable node
    if 0 ≤ index then some (toInt32 index.toNat) else none
  else
    let index := indexingGet itemTable node
    if 0 ≤ index then some (toInt32 (index.toNat + indexingSize userTable)) else none

/-- One parsed edge record (`EdgeValue`): an observed positive edge. -/
structure EdgeValue where
  src_node : Node
  dst_node : Node
  deriving Repr, DecidableEq

/-- One parsed node record (`NodeValue`), inference only. -/
structure NodeValue where
  node : Node
  deriving Repr, DecidableEq

/-- The reader configuration fields consulted by the two batch builders. -/
structure ReaderConfig where
  num_neg : Nat
  user_ns_id : Nat
  item_ns_id : Nat
  deriving Repr, DecidableEq

/-- The negative-sampling request issued to
`graph_client_->SharedSampleNegative` (source lines 133-134): the requested
count, the anchor sequence and the sampling pool. -/
structure NegRequest where
  count : Nat
  anchors : List Node
  pool : List Node
  deriving Repr, DecidableEq

/-- Observable outcome of one `GetTrainBatch` call: the returned flag, the
effects on the record source and the instance, and the data handed to the
collaborators. -/
structure TrainBatchResult where
  returned : Bool
  sourceClosed : Bool
  batchCleared : Bool
  negRequest : Option NegRequest
  user_nodes : List Node
  item_nodes : List Node
  parseErrors : List ParseError
  userTable : List Node
  itemTable : List Node
  srcIndices : List (Option Nat)
  dstIndices : List (Option Nat)
  negIndices : List (List (Option Nat))
  batchSize : Option Nat
  deriving Repr, DecidableEq

/-- The `src_nodes_` buffer collected at source line 131. -/
def trainSrcNodes (values : List EdgeValue) : List Node :=
  values.map EdgeValue.src_node

/-- The `dst_nodes_` buffer collected at source line 132. -/
def trainDstNodes (values : List EdgeValue) : List Node :=
  values.map EdgeValue.dst_node

/-- The `neg_nodes_list_` produced by the `SharedSampleNegative` collaborator
(source lines 133-134); the collaborator itself is the abstract `sampler`. -/
def trainNegNodesList (cfg : ReaderConfig)
    (sampler : Nat → List Node → List Node → List (List Node))
    (values : List EdgeValue) : List (List Node) :=
  sampler cfg.num_neg (trainDstNodes values) (trainDstNodes values)

/-- The `user_nodes` vector accumulated by the three `ParseUserAndItemFrom`
calls (source lines 137-145): source endpoints, then destination endpoints,
then every negative list in order. -/
def trainUserNodes (cfg : ReaderConfig)
    (sampler : Nat → List Node → List Node → List (List Node))
    (values : List EdgeValue) : List Node :=
  (ParseUserAndItemFrom (trainSrcNodes values) cfg.user_ns_id cfg.item_ns_id).user_nodes ++
    (ParseUserAndItemFrom (trainDstNodes values) cfg.user_ns_id cfg.item_ns_id).user_nodes ++
    ((trainNegNodesList cfg sampler values).map
      (fun neg_nodes =>
        (ParseUserAndItemFrom neg_nodes cfg.user_ns_id cfg.item_ns_id).user_nodes)).flatten

/-- The `item_nodes` vector accumulated by the three `ParseUserAndItemFrom`
calls (source lines 137-145). -/
def trainItemNodes (cfg : ReaderConfig)
    (sampler : Nat → List Node → List Node → List (List Node))
    (values : List EdgeValue) : List Node :=
  (ParseUserAndItemFrom (trainSrcNodes values) cfg.user_ns_id cfg.item_ns_id).item_nodes ++
    (ParseUserAndItemFrom (trainDstNodes values) cfg.user_ns_id cfg.item_ns_id).item_nodes ++
    ((trainNegNodesList cfg sampler values).map
      (fun neg_nodes =>
        (ParseUserAndItemFrom neg_nodes cfg.user_ns_id cfg.item_ns_id).item_nodes)).flatten

/-- The diagnostics emitted by the three `ParseUserAndItemFrom` calls. -/
def trainParseErrors (cfg : ReaderConfig)
    (sampler : Nat → List Node → List Node → List (List Node))
    (values : List EdgeValue) : List ParseError :=
  (ParseUserAndItemFrom (trainSrcNodes values) cfg.user_ns_id cfg.item_ns_id).errors ++
    (ParseUserAndItemFrom (trainDstNodes values) cfg.user_ns_id cfg.item_ns_id).errors ++
    ((trainNegNodesList cfg sampler values).map
      (fun neg_nodes =>
        (ParseUserAndItemFrom neg_nodes cfg.user_ns_id cfg.item_ns_id).errors)).flatten

/-- The level-0 user table built by `FillInstance` for the user encoder. -/
def trainUserTable (cfg : ReaderConfig)
    (sampler : Nat → List Node → List Node → List (List Node))
    (values : List EdgeValue) : List Node :=
  buildIndexing (trainUserNodes cfg sampler values)

/-- The level-0 item table built by `FillInstance` for the item encoder. -/
def trainItemTable (cfg : ReaderConfig)
    (sampler : Nat → List Node → List Node → List (List Node))
    (values : List EdgeValue) : List Node :=
  buildIndexing (trainItemNodes cfg sampler values)

/-- Shallow embedding of `GetTrainBatch` (source lines 123-173).  The record
source is modelled as its yielded batch (`none` = no records remain) and the
negative-sampling collaborator as the function argument `sampler`; the
`FillEdgeAndLabel` collaborator is modelled from the spec (§6) as applying the
index function to the source, destination and negative node sequences.  The
local variables of the C++ function are hoisted into the named definitions
above. -/
def GetTrainBatch (cfg : ReaderConfig)
    (sampler : Nat → List Node → List Node → List (List Node))
    (batch : Option (List EdgeValue)) : TrainBatchResult :=
  match batch with
  | none =>
    { returned := false, sourceClosed := true, batchCleared := true
      negRequest := none, user_nodes := [], item_nodes := [], parseErrors := []
      userTable := [], itemTable := []
      srcIndices := [], dstIndices := [], negIndices := [], batchSize := none }
  | some values =>
    { returned := true, sourceClosed := false, batchCleared := false
      negRequest := some ⟨cfg.num_neg, trainDstNodes values, trainDstNodes values⟩
      user_nodes := trainUserNodes cfg sampler values
      item_nodes := trainItemNodes cfg sampler values
      parseErrors := trainParseErrors cfg sampler values
      userTable := trainUserTable cfg sampler values
      itemTable := trainItemTable cfg sampler values
      srcIndices := (trainSrcNodes values).map
        (index_func cfg.user_ns_id (trainUserTable cfg sampler values)
          (trainItemTable cfg sampler values))
      dstIndices := (trainDstNodes values).map
        (index_func cfg.user_ns_id (trainUserTable cfg sampler values)
          (trainItemTable cfg sampler values))
      negIndices := (trainNegNodesList cfg sampler values).map
        (List.map (index_func cfg.user_ns_id (trainUserTable cfg sampler values)
          (trainItemTable cfg sampler values)))
      batchSize := some (trainSrcNodes values).length }

/-- Observable outcome of one `GetPredictBatch` call. -/
structure PredictBatchResult where
  returned : Bool
  sourceClosed : Bool
  batchCleared : Bool
  user_nodes : List Node
  item_nodes : List Node
  parseErrors : List ParseError
  userTable : List Node
  itemTable : List Node
  srcIndices : List (Option Int)
  predictNodes : Option (List Node)
  batchSize : Option Nat
  deriving Repr, DecidableEq

/-- The `src_nodes_` buffer collected at source line 186. -/
def predictSrcNodes (values : List NodeValue) : List Node :=
  values.map NodeValue.node

/-- The level-0 user table built on the predict path. -/
def predictUserTable (cfg : ReaderConfig) (values : List NodeValue) : List Node :=
  buildIndexing
    (ParseUserAndItemFrom (predictSrcNodes values) cfg.user_ns_id cfg.item_ns_id).user_nodes

/-- The level-0 item table built on the predict path. -/
def predictItemTable (cfg : ReaderConfig) (values : List NodeValue) : List Node :=
  buildIndexing
    (ParseUserAndItemFrom (predictSrcNodes values) cfg.user_ns_id cfg.item_ns_id).item_nodes

/-- Shallow embedding of `GetPredictBatch` (source lines 178-209).  The record
source is modelled as its yielded batch (`none` = no records remain);
`FillIndex` (lines 224-232) applies `Index` to every source node. -/
def GetPredictBatch (cfg : ReaderConfig)
    (batch : Option (List NodeValue)) : PredictBatchResult :=
  match batch with
  | none =>
    { returned := false, sourceClosed := true, batchCleared := true
      user_nodes := [], item_nodes := [], parseErrors := []
      userTable := [], itemTable := []
      srcIndices := [], predictNodes := none, batchSize := none }
  | some values =>
    { returned := true, sourceClosed := false, batchCleared := false
      user_nodes :=
        (ParseUserAndItemFrom (predictSrcNodes values) cfg.user_ns_id cfg.item_ns_id).user_nodes
      item_nodes :=
        (ParseUserAndItemFrom (predictSrcNodes values) cfg.user_ns_id cfg.item_ns_id).item_nodes
      parseErrors :=
        (ParseUserAndItemFrom (predictSrcNodes values) cfg.user_ns_id cfg.item_ns_id).errors
      userTable := predictUserTable cfg values
      itemTable := predictItemTable cfg values
      srcIndices := (predictSrcNodes values).map
        (Index cfg.user_ns_id (predictUserTable cfg values) (predictItemTable cfg values))
      predictNodes := some (predictSrcNodes values)
      batchSize := some (predictSrcNodes values).length }

/-! ### Properties of the modelled index table -/

theorem lookupIndex?_lt (t : List Node) (n : Node) (i : Nat)
    (h : lookupIndex? t n = some i) : i < t.length := by
  induction t generalizing i with
  | nil => simp [lookupIndex?] at h
  | cons x xs ih =>
    simp only [lookupIndex?] at h
    split at h
    · cases h
      simp
    · cases hx : lookupIndex? xs n with
      | none => rw [hx] at h; simp at h
      | some j =>
        rw [hx] at h
        simp only [Option.map_some'] at h
        cases h
        have := ih j hx
        simp only [List.length_cons]
        omega

theorem lookupIndex?_get (t : List Node) (n : Node) (i : Nat)
    (h : lookupIndex? t n = some i) : t[i]? = some n := by
  induction t generalizing i with
  | nil => simp [lookupIndex?] at h
  | cons x xs ih =>
    simp only [lookupIndex?] at h
    split at h
    · cases h
      simp_all
    · cases hx : lookupIndex? xs n with
      | none => rw [hx] at h; simp at h
      | some j =>
        rw [hx] at h
        simp only [Option.map_some'] at h
        cases h
        simpa using ih j hx

theorem lookupIndex?_inj (t : List Node) (n₁ n₂ : Node) (i : Nat)
    (h₁ : lookupIndex? t n₁ = some i) (h₂ : lookupIndex? t n₂ = some i) :
    n₁ = n₂ := by
  have g₁ := lookupIndex?_get t n₁ i h₁
  have g₂ := lookupIndex?_get t n₂ i h₂
  rw [g₁] at g₂
  exact Option.some_injective _ g₂

theorem lookupIndex?_eq_none (t : List Node) (n : Node) :
    lookupIndex? t n = none ↔ n ∉ t := by
  induction t with
  | nil => simp [lookupIndex?]
  | cons x xs ih =>
    by_cases hx : x = n
    · simp [lookupIndex?, hx]
    · simp [lookupIndex?, hx, Option.map_eq_none', ih, Ne.symm hx]

theorem lookupIndex?_exists_of_mem (t : List Node) (n : Node) (h : n ∈ t) :
    ∃ i, lookupIndex? t n = some i := by
  cases hx : lookupIndex? t n with
  | none => exact absurd ((lookupIndex?_eq_none t n).1 hx) (by simp [h])
  | some i => exact ⟨i, rfl⟩

/-! ### Properties of the node-type partition -/

theorem parse_user_eq_filter (nodes : List Node) (ug ig : Nat) :
    (ParseUserAndItemFrom nodes ug ig).user_nodes =
      nodes.filter (fun n => decide (GetNodeType n = ug)) := by
  induction nodes with
  | nil => rfl
  | cons x xs ih =>
    simp only [ParseUserAndItemFrom, List.filter_cons]
    by_cases h1 : GetNodeType x = ug
    · simp [h1, ih]
    · by_cases h2 : GetNodeType x = ig
      · have h2' : ¬(ig = ug) := fun e => h1 (h2.trans e)
        simp [h1, h2, h2', ih]
      · simp [h1, h2, ih]

theorem parse_item_eq_filter (nodes : List Node) (ug ig : Nat) :
    (ParseUserAndItemFrom nodes ug ig).item_nodes =
      nodes.filter (fun n => decide (GetNodeType n ≠ ug ∧ GetNodeType n = ig)) := by
  induction nodes with
  | nil => rfl
  | cons x xs ih =>
    simp only [ParseUserAndItemFrom, List.filter_cons]
    by_cases h1 : GetNodeType x = ug
    · simp [h1, ih]
    · by_cases h2 : GetNodeType x = ig
      · have h2' : ¬(ig = ug) := fun e => h1 (h2.trans e)
        simp [h1, h2, h2', ih]
      · simp [h1, h2, ih]

theorem parse_errors_eq (nodes : List Node) (ug ig : Nat) :
    (ParseUserAndItemFrom nodes ug ig).errors =
      (nodes.filter (fun n => decide (GetNodeType n ≠ ug ∧ GetNodeType n ≠ ig))).map
        (fun n => ⟨n, GetNodeType n, ug, ig⟩) := by
  induction nodes with
  | nil => rfl
  | cons x xs ih =>
    simp only [ParseUserAndItemFrom, List.filter_cons]
    by_cases h1 : GetNodeType x = ug
    · simp [h1, ih]
    · by_cases h2 : GetNodeType x = ig
      · have h2' : ¬(ig = ug) := fun e => h1 (h2.trans e)
        simp [h1, h2, h2', ih]
      · simp [h1, h2, ih]

theorem not_mem_parse_user (nodes : List Node) (ug ig : Nat) (n : Node)
    (h : GetNodeType n ≠ ug) :
    n ∉ (ParseUserAndItemFrom nodes ug ig).user_nodes := by
  rw [parse_user_eq_filter]
  simp [List.mem_filter, h]

theorem not_mem_parse_item (nodes : List Node) (ug ig : Nat) (n : Node)
    (h : GetNodeType n ≠ ig) :
    n ∉ (ParseUserAndItemFrom nodes ug ig).item_nodes := by
  rw [parse_item_eq_filter]
  simp [List.mem_filter, h]

theorem parse_length (nodes : List Node) (ug ig : Nat)
    (h : ∀ n ∈ nodes, GetNodeType n = ug ∨ GetNodeType n = ig) :
    (ParseUserAndItemFrom nodes ug ig).user_nodes.length +
      (ParseUserAndItemFrom nodes ug ig).item_nodes.length = nodes.length := by
  induction nodes with
  | nil => rfl
  | cons x xs ih =>
    have hx := h x (List.mem_cons_self x xs)
    have hxs := ih (fun n hn => h n (List.mem_cons_of_mem x hn))
    simp only [ParseUserAndItemFrom]
    by_cases h1 : GetNodeType x = ug
    · rw [if_pos h1]
      dsimp only
      simp only [List.length_cons]
      omega
    · have h2 : GetNodeType x = ig := hx.resolve_left h1
      rw [if_neg h1, if_pos h2]
      dsimp only
      simp only [List.length_cons]
      omega

theorem parse_count (nodes : List Node) (ug ig : Nat)
    (h : ∀ n ∈ nodes, GetNodeType n = ug ∨ GetNodeType n = ig) (n : Node) :
    (ParseUserAndItemFrom nodes ug ig).user_nodes.count n +
      (ParseUserAndItemFrom nodes ug ig).item_nodes.count n = nodes.count n := by
  induction nodes with
  | nil => rfl
  | cons x xs ih =>
    have hx := h x (List.mem_cons_self x xs)
    have hxs := ih (fun m hm => h m (List.mem_cons_of_mem x hm))
    simp only [ParseUserAndItemFrom]
    by_cases h1 : GetNodeType x = ug
    · rw [if_pos h1]
      dsimp only
      simp only [List.count_cons]
      omega
    · have h2 : GetNodeType x = ig := hx.resolve_left h1
      rw [if_neg h1, if_pos h2]
      dsimp only
      simp only [List.count_cons]
      omega

theorem parse_append_user (a b : List Node) (ug ig : Nat) :
    (ParseUserAndItemFrom (a ++ b) ug ig).user_nodes =
      (ParseUserAndItemFrom a ug ig).user_nodes ++
        (ParseUserAndItemFrom b ug ig).user_nodes := by
  simp [parse_user_eq_filter, List.filter_append]

theorem parse_append_item (a b : List Node) (ug ig : Nat) :
    (ParseUserAndItemFrom (a ++ b) ug ig).item_nodes =
      (ParseUserAndItemFrom a ug ig).item_nodes ++
        (ParseUserAndItemFrom b ug ig).item_nodes := by
  simp [parse_item_eq_filter, List.filter_append]

theorem parse_append_errors (a b : List Node) (ug ig : Nat) :
    (ParseUserAndItemFrom (a ++ b) ug ig).errors =
      (ParseUserAndItemFrom a ug ig).errors ++
        (ParseUserAndItemFrom b ug ig).errors := by
  simp [parse_errors_eq, List.filter_append]

/-! ### Properties of the unified index functions -/

theorem index_func_user (uns : Nat) (uT iT : List Node) (n : Node)
    (h : GetNodeType n = uns) :
    index_func uns uT iT n = lookupIndex? uT n := by
  unfold index_func indexingGet
  rw [if_pos h]
  cases hx : lookupIndex? uT n <;> simp [hx]

theorem index_func_item (uns : Nat) (uT iT : List Node) (n : Node)
    (h : GetNodeType n ≠ uns) :
    index_func uns uT iT n = (lookupIndex? iT n).map (· + uT.length) := by
  unfold index_func indexingGet indexingSize
  rw [if_neg h]
  cases hx : lookupIndex? iT n <;> simp [hx]

theorem Index_user (uns : Nat) (uT iT : List Node) (n : Node)
    (h : GetNodeType n = uns) :
    Index uns uT iT n = (lookupIndex? uT n).map (fun i => toInt32 i) := by
  unfold Index indexingGet
  rw [if_pos h]
  cases hx : lookupIndex? uT n <;> simp [hx]

theorem Index_item (uns : Nat) (uT iT : List Node) (n : Node)
    (h : GetNodeType n ≠ uns) :
    Index uns uT iT n = (lookupIndex? iT n).map (fun i => toInt32 (i + uT.length)) := by
  unfold Index indexingGet indexingSize
  rw [if_neg h]
  cases hx : lookupIndex? iT n <;> simp [hx]

theorem toInt32_eq_self_iff (v : Nat) : toInt32 v = (v : Int) ↔ v < 2 ^ 31 := by
  unfold toInt32
  split
  · constructor
    · intro he
      have : v % 2 ^ 32 = v := by exact_mod_cast he
      omega
    · intro hv
      have : v % 2 ^ 32 = v := Nat.mod_eq_of_lt (by omega)
      exact_mod_cast this
  · constructor
    · intro he
      have hlt : (v : Int) % 2 ^ 32 = (v % 2 ^ 32 : Nat) := by push_cast; rfl
      omega
    · intro hv
      have : v % 2 ^ 32 = v := Nat.mod_eq_of_lt (by omega)
      omega

theorem toInt32_emod (v : Nat) :
    toInt32 v % (2 : Int) ^ 32 = (v : Int) % 2 ^ 32 := by
  unfold toInt32
  split <;> push_cast <;> omega

/-! ### Properties of the modelled level-0 table construction -/

theorem mem_foldl_insertUnique (l acc : List Node) (n : Node) :
    n ∈ l.foldl insertUnique acc ↔ n ∈ acc ∨ n ∈ l := by
  induction l generalizing acc with
  | nil => simp
  | cons x xs ih =>
    rw [List.foldl_cons, ih]
    unfold insertUnique
    split
    · simp only [List.mem_cons]
      constructor
      · tauto
      · rintro (h | rfl | h) <;> tauto
    · simp only [List.mem_append, List.mem_cons, List.mem_singleton]
      tauto

theorem mem_buildIndexing (l : List Node) (n : Node) :
    n ∈ buildIndexing l ↔ n ∈ l := by
  unfold buildIndexing
  rw [mem_foldl_insertUnique]
  simp

/-! ### Claim theorems -/

/-- C1: for every node whose extracted type tag equals the configured user tag,
the unified index function returns that node's level-0 user-table index
unchanged; for every other node it returns the node's level-0 item-table index
plus the user table's size.  Consequently, for level-0 tables of sizes `U` and
`I`, resolved user indices lie in `[0, U)`, resolved item indices lie in
`[U, U + I)`, and no two distinct indexed nodes resolve to the same flat
index. -/
theorem claim_unified_index (uns : Nat) (uT iT : List Node) :
    (∀ n, GetNodeType n = uns → index_func uns uT iT n = lookupIndex? uT n) ∧
    (∀ n, GetNodeType n ≠ uns →
      index_func uns uT iT n = (lookupIndex? iT n).map (· + uT.length)) ∧
    (∀ n i, GetNodeType n = uns → index_func uns uT iT n = some i →
      i < uT.length) ∧
    (∀ n i, GetNodeType n ≠ uns → index_func uns uT iT n = some i →
      uT.length ≤ i ∧ i < uT.length + iT.length) ∧
    (∀ n₁ n₂ i, index_func uns uT iT n₁ = some i →
      index_func uns uT iT n₂ = some i → n₁ = n₂) := by
  have bound_user : ∀ n i, GetNodeType n = uns → index_func uns uT iT n = some i →
      i < uT.length := by
    intro n i h hf
    rw [index_func_user uns uT iT n h] at hf
    exact lookupIndex?_lt uT n i hf
  have split_item : ∀ n i, GetNodeType n ≠ uns → index_func uns uT iT n = some i →
      ∃ j, lookupIndex? iT n = some j ∧ i = j + uT.length := by
    intro n i h hf
    rw [index_func_item uns uT iT n h] at hf
    cases hx : lookupIndex? iT n with
    | none => rw [hx] at hf; simp at hf
    | some j =>
      rw [hx] at hf
      simp only [Option.map_some', Option.some.injEq] at hf
      exact ⟨j, rfl, hf.symm⟩
  refine ⟨fun n h => index_func_user uns uT iT n h,
    fun n h => index_func_item uns uT iT n h, bound_user, ?_, ?_⟩
  · intro n i h hf
    obtain ⟨j, hj, rfl⟩ := split_item n i h hf
    have := lookupIndex?_lt iT n j hj
    omega
  · intro n₁ n₂ i hf₁ hf₂
    by_cases t₁ : GetNodeType n₁ = uns <;> by_cases t₂ : GetNodeType n₂ = uns
    · rw [index_func_user uns uT iT n₁ t₁] at hf₁
      rw [index_func_user uns uT iT n₂ t₂] at hf₂
      exact lookupIndex?_inj uT n₁ n₂ i hf₁ hf₂
    · have h₁ := bound_user n₁ i t₁ hf₁
      obtain ⟨j, hj, rfl⟩ := split_item n₂ i t₂ hf₂
      omega
    · have h₂ := bound_user n₂ i t₂ hf₂
      obtain ⟨j, hj, rfl⟩ := split_item n₁ i t₁ hf₁
      omega
    · obtain ⟨j₁, hj₁, he₁⟩ := split_item n₁ i t₁ hf₁
      obtain ⟨j₂, hj₂, he₂⟩ := split_item n₂ i t₂ hf₂
      have : j₁ = j₂ := by omega
      subst this
      exact lookupIndex?_inj iT n₁ n₂ j₁ hj₁ hj₂

/-- Witness for C1 at a concrete input: the item-typed node `2^48 + 1` with a
one-entry user table resolves through the item branch to flat index `1`. -/
theorem claim_unified_index_witness :
    index_func 0 [5] [281474976710657] 281474976710657 = some 1 := by
  have h := (claim_unified_index 0 [5] [281474976710657]).2.1 281474976710657
    (by decide)
  rw [h]
  decide

/-- C4: applying a unified index function to a node absent from the level-0
table consulted for it makes the table lookup yield a negative index and
aborts batch construction (`none`, the `DXCHECK` failure); no flat index is
produced, on the training path (`index_func`) or the predict path (`Index`). -/
theorem claim_lookup_miss_aborts (uns : Nat) (uT iT : List Node) (n : Node) :
    (GetNodeType n = uns → n ∉ uT →
      indexingGet uT n < 0 ∧ index_func uns uT iT n = none ∧
        Index uns uT iT n = none) ∧
    (GetNodeType n ≠ uns → n ∉ iT →
      indexingGet iT n < 0 ∧ index_func uns uT iT n = none ∧
        Index uns uT iT n = none) := by
  constructor
  · intro h hm
    have hl : lookupIndex? uT n = none := (lookupIndex?_eq_none uT n).2 hm
    refine ⟨by simp [indexingGet, hl], ?_, ?_⟩
    · rw [index_func_user uns uT iT n h, hl]
    · rw [Index_user uns uT iT n h, hl]
      rfl
  · intro h hm
    have hl : lookupIndex? iT n = none := (lookupIndex?_eq_none iT n).2 hm
    refine ⟨by simp [indexingGet, hl], ?_, ?_⟩
    · rw [index_func_item uns uT iT n h, hl]
      rfl
    · rw [Index_item uns uT iT n h, hl]
      rfl

/-- Witness for C4 at a concrete input: node `5` (tag `0`) is absent from the
empty user table, so the lookup is negative and both index functions abort. -/
theorem claim_lookup_miss_aborts_witness :
    indexingGet [] 5 < 0 ∧ index_func 0 [] [] 5 = none ∧ Index 0 [] [] 5 = none :=
  (claim_lookup_miss_aborts 0 [] [] 5).1 (by decide) (by decide)

/-- C10: for an item-side node with item-table index `i`, the training-path
`index_func` returns the full value `i + U` (`U` the user-table size) while
the predict-path `Index`, declared `int`, returns that value narrowed to a
signed 32-bit integer: it equals the true unified index exactly when the value
fits in a signed 32-bit `int`, and is otherwise its truncation modulo `2^32`
reinterpreted as signed (same residue modulo `2^32`). -/
theorem claim_predict_index_narrowing (uns : Nat) (uT iT : List Node)
    (n : Node) (i : Nat) (hn : GetNodeType n ≠ uns)
    (hi : lookupIndex? iT n = some i) :
    index_func uns uT iT n = some (i + uT.length) ∧
    Index uns uT iT n = some (toInt32 (i + uT.length)) ∧
    (toInt32 (i + uT.length) = ((i + uT.length : Nat) : Int) ↔
      i + uT.length < 2 ^ 31) ∧
    toInt32 (i + uT.length) % (2 : Int) ^ 32 =
      ((i + uT.length : Nat) : Int) % 2 ^ 32 := by
  refine ⟨?_, ?_, toInt32_eq_self_iff _, toInt32_emod _⟩
  · rw [index_func_item uns uT iT n hn, hi]
    rfl
  · rw [Index_item uns uT iT n hn, hi]
    rfl

/-- Witness for C10 at a concrete input: the item-typed node `2^48` with an
empty user table. -/
theorem claim_predict_index_narrowing_witness :
    index_func 0 [] [281474976710656] 281474976710656 = some 0 ∧
    Index 0 [] [281474976710656] 281474976710656 = some (toInt32 0) ∧
    (toInt32 0 = ((0 : Nat) : Int) ↔ 0 < 2 ^ 31) ∧
    toInt32 0 % (2 : Int) ^ 32 = ((0 : Nat) : Int) % 2 ^ 32 :=
  claim_predict_index_narrowing 0 [] [281474976710656] 281474976710656 0
    (by decide) (by decide)

/-- C2: when every node in the input carries one of the two registered tags,
classification appends every node to exactly one of the two output lists
(`|user_nodes| + |item_nodes| = |input|`, and the per-node occurrence counts
add up), and each output list is the order-preserving filter of the input
(stable partition). -/
theorem claim_partition_complete (nodes : List Node) (ug ig : Nat)
    (h : ∀ n ∈ nodes, GetNodeType n = ug ∨ GetNodeType n = ig) :
    (ParseUserAndItemFrom nodes ug ig).user_nodes.length +
      (ParseUserAndItemFrom nodes ug ig).item_nodes.length = nodes.length ∧
    (ParseUserAndItemFrom nodes ug ig).user_nodes =
      nodes.filter (fun n => decide (GetNodeType n = ug)) ∧
    (ParseUserAndItemFrom nodes ug ig).item_nodes =
      nodes.filter (fun n => decide (GetNodeType n ≠ ug ∧ GetNodeType n = ig)) ∧
    (∀ n, (ParseUserAndItemFrom nodes ug ig).user_nodes.count n +
      (ParseUserAndItemFrom nodes ug ig).item_nodes.count n = nodes.count n) :=
  ⟨parse_length nodes ug ig h, parse_user_eq_filter nodes ug ig,
    parse_item_eq_filter nodes ug ig, parse_count nodes ug ig h⟩

/-- Witness for C2 at a concrete input: a user-tagged and an item-tagged node
partition completely. -/
theorem claim_partition_complete_witness :
    (ParseUserAndItemFrom [1, 281474976710657] 0 1).user_nodes.length +
      (ParseUserAndItemFrom [1, 281474976710657] 0 1).item_nodes.length = 2 :=
  (claim_partition_complete [1, 281474976710657] 0 1 (by decide)).1

/-- C3: a node whose tag matches neither registered tag is reported in a
diagnostic carrying the node and the two expected tags, is appended to neither
output list, and the remaining nodes are still processed: the outputs for the
surrounding nodes are exactly those obtained without the offending node. -/
theorem claim_invalid_node_dropped (pre suf : List Node) (b : Node) (ug ig : Nat)
    (h1 : GetNodeType b ≠ ug) (h2 : GetNodeType b ≠ ig) :
    (ParseUserAndItemFrom (pre ++ b :: suf) ug ig).user_nodes =
      (ParseUserAndItemFrom pre ug ig).user_nodes ++
        (ParseUserAndItemFrom suf ug ig).user_nodes ∧
    (ParseUserAndItemFrom (pre ++ b :: suf) ug ig).item_nodes =
      (ParseUserAndItemFrom pre ug ig).item_nodes ++
        (ParseUserAndItemFrom suf ug ig).item_nodes ∧
    (ParseUserAndItemFrom (pre ++ b :: suf) ug ig).errors =
      (ParseUserAndItemFrom pre ug ig).errors ++
        ⟨b, GetNodeType b, ug, ig⟩ :: (ParseUserAndItemFrom suf ug ig).errors ∧
    b ∉ (ParseUserAndItemFrom (pre ++ b :: suf) ug ig).user_nodes ∧
    b ∉ (ParseUserAndItemFrom (pre ++ b :: suf) ug ig).item_nodes := by
  refine ⟨?_, ?_, ?_, not_mem_parse_user _ _ _ _ h1, not_mem_parse_item _ _ _ _ h2⟩
  · rw [parse_append_user, parse_user_eq_filter (b :: suf),
      parse_user_eq_filter suf]
    simp [List.filter_cons, h1]
  · rw [parse_append_item, parse_item_eq_filter (b :: suf),
      parse_item_eq_filter suf]
    simp [List.filter_cons, h1, h2]
  · rw [parse_append_errors, parse_errors_eq (b :: suf), parse_errors_eq suf]
    simp [List.filter_cons, h1, h2]

/-- Witness for C3 at a concrete input: the tag-`2` node `2 * 2^48 + 7` placed
between a user node and an item node lands in neither output list. -/
theorem claim_invalid_node_dropped_witness :
    562949953421319 ∉
      (ParseUserAndItemFrom ([1] ++ 562949953421319 :: [281474976710657])
        0 1).user_nodes :=
  (claim_invalid_node_dropped [1] [281474976710657] 562949953421319 0 1
    (by decide) (by decide)).2.2.2.1

/-- C5: the training batch requests negatives with `num_neg` as the count and
the batch's own collected destination-node list as both the anchor sequence
and the sampling pool. -/
theorem claim_negative_sampling_request (cfg : ReaderConfig)
    (sampler : Nat → List Node → List Node → List (List Node))
    (values : List EdgeValue) :
    (GetTrainBatch cfg sampler (some values)).negRequest =
      some ⟨cfg.num_neg, values.map EdgeValue.dst_node,
        values.map EdgeValue.dst_node⟩ :=
  rfl

/-- C6: in both pipelines, when the record source yields no further records the
builder closes the source, clears the output batch, and returns the
end-of-stream signal `false` with no sampling, classification, indexing or
filling work performed. -/
theorem claim_end_of_stream (cfg : ReaderConfig)
    (sampler : Nat → List Node → List Node → List (List Node)) :
    GetTrainBatch cfg sampler none =
      { returned := false, sourceClosed := true, batchCleared := true
        negRequest := none, user_nodes := [], item_nodes := [], parseErrors := []
        userTable := [], itemTable := []
        srcIndices := [], dstIndices := [], negIndices := [], batchSize := none } ∧
    GetPredictBatch cfg none =
      { returned := false, sourceClosed := true, batchCleared := true
        user_nodes := [], item_nodes := [], parseErrors := []
        userTable := [], itemTable := []
        srcIndices := [], predictNodes := none, batchSize := none } :=
  ⟨rfl, rfl⟩

/-- C7: in a training batch, a node with an unrecognized type tag that occurs
only inside a negative-sample list is excluded from both node lists, appears
in neither level-0 table, and is not resolvable to a flat index by the unified
index function built for that batch. -/
theorem claim_unknown_tag_neg_dropped (cfg : ReaderConfig)
    (sampler : Nat → List Node → List Node → List (List Node))
    (values : List EdgeValue) (n : Node)
    (hu : GetNodeType n ≠ cfg.user_ns_id) (hi : GetNodeType n ≠ cfg.item_ns_id)
    (_hneg : ∃ l ∈ trainNegNodesList cfg sampler values, n ∈ l)
    (_hsrc : n ∉ trainSrcNodes values) (_hdst : n ∉ trainDstNodes values) :
    n ∉ (GetTrainBatch cfg sampler (some values)).user_nodes ∧
    n ∉ (GetTrainBatch cfg sampler (some values)).item_nodes ∧
    n ∉ (GetTrainBatch cfg sampler (some values)).userTable ∧
    n ∉ (GetTrainBatch cfg sampler (some values)).itemTable ∧
    index_func cfg.user_ns_id (GetTrainBatch cfg sampler (some values)).userTable
      (GetTrainBatch cfg sampler (some values)).itemTable n = none := by
  have hU : n ∉ trainUserNodes cfg sampler values := by
    unfold trainUserNodes
    intro hmem
    rcases List.mem_append.1 hmem with hmem | hmem
    · rcases List.mem_append.1 hmem with hmem | hmem
      · exact not_mem_parse_user _ _ _ _ hu hmem
      · exact not_mem_parse_user _ _ _ _ hu hmem
    · rcases List.mem_flatten.1 hmem with ⟨l, hl, hnl⟩
      rcases List.mem_map.1 hl with ⟨neg_nodes, hmem2, rfl⟩
      exact not_mem_parse_user _ _ _ _ hu hnl
  have hI : n ∉ trainItemNodes cfg sampler values := by
    unfold trainItemNodes
    intro hmem
    rcases List.mem_append.1 hmem with hmem | hmem
    · rcases List.mem_append.1 hmem with hmem | hmem
      · exact not_mem_parse_item _ _ _ _ hi hmem
      · exact not_mem_parse_item _ _ _ _ hi hmem
    · rcases List.mem_flatten.1 hmem with ⟨l, hl, hnl⟩
      rcases List.mem_map.1 hl with ⟨neg_nodes, hmem2, rfl⟩
      exact not_mem_parse_item _ _ _ _ hi hnl
  have hUT : n ∉ trainUserTable cfg sampler values :=
    fun hmem => hU ((mem_buildIndexing _ n).1 hmem)
  have hIT : n ∉ trainItemTable cfg sampler values :=
    fun hmem => hI ((mem_buildIndexing _ n).1 hmem)
  have hl : lookupIndex? (GetTrainBatch cfg sampler (some values)).itemTable n = none :=
    (lookupIndex?_eq_none _ n).2 hIT
  refine ⟨hU, hI, hUT, hIT, ?_⟩
  rw [index_func_item _ _ _ _ hu, hl]
  rfl

/-- Witness for C7 at a concrete input: the tag-`2` node `2 * 2^48 + 7`
returned only by the negative sampler is absent from the user node list. -/
theorem claim_unknown_tag_neg_dropped_witness :
    562949953421319 ∉
      (GetTrainBatch ⟨1, 0, 1⟩ (fun _ _ _ => [[562949953421319]])
        (some [⟨1, 281474976710657⟩])).user_nodes :=
  (claim_unknown_tag_neg_dropped ⟨1, 0, 1⟩ (fun _ _ _ => [[562949953421319]])
    [⟨1, 281474976710657⟩] 562949953421319 (by decide) (by decide) (by decide)
    (by decide) (by decide)).1

/-- The training batch of end-to-end scenario 1: edges `(U1, I1)` and
`(U2, I1)` with `num_neg = 1`, `user_ns_id = 0`, `item_ns_id = 1`, where
`U1 = 1`, `U2 = 2` (tag 0) and `I1 = 2^48 + 1` (tag 1), and the sampler drawing
`I1` from the destination pool for each anchor. -/
def scenario1 : TrainBatchResult :=
  GetTrainBatch ⟨1, 0, 1⟩ (fun _ _ _ => [[281474976710657], [281474976710657]])
    (some [⟨1, 281474976710657⟩, ⟨2, 281474976710657⟩])

/-- C8: in scenario 1 the two user nodes receive level-0 indices in `[0, 2)`,
item node `I1` resolves to the single flat index `2` (its item index `0` plus
the user-table size `2`), the edge-endpoint index tensors hold those flat
indices, and the reported batch size is `2`. -/
theorem claim_end_to_end_scenario1 :
    scenario1.userTable.length = 2 ∧
    scenario1.itemTable.length = 1 ∧
    scenario1.srcIndices = [some 0, some 1] ∧
    scenario1.dstIndices = [some 2, some 2] ∧
    scenario1.negIndices = [[some 2], [some 2]] ∧
    index_func 0 scenario1.userTable scenario1.itemTable 281474976710657 =
      some 2 ∧
    scenario1.batchSize = some 2 := by
  decide

/-- C9: every successfully constructed inference batch writes the input node
sequence verbatim as the predict-node list and reports the number of consumed
node records as the batch size. -/
theorem claim_predict_nodes_verbatim (cfg : ReaderConfig)
    (values : List NodeValue) :
    (GetPredictBatch cfg (some values)).predictNodes =
      some (values.map NodeValue.node) ∧
    (GetPredictBatch cfg (some values)).batchSize = some values.length := by
  refine ⟨rfl, ?_⟩
  show some (predictSrcNodes values).length = some values.length
  simp [predictSrcNodes]

end Embedx
